import Mathlib

/-!
# Verification of the ibarangay-be audit-trail and notification subsystem

Shallow embedding of the audit middleware (`src/middleware/auditLog.ts`,
re-exported through `src/routes/adminRoutes.ts`), the audit-log schema
(`src/models/AuditLog.ts`), the admin audit-log listing controller
(`src/controllers/adminController.ts`), the search controller
(`searchController.ts`) and the websocket fan-out module
(`websocketServer.ts`), together with proofs of the specification's
claims about them.
-/

namespace IBarangay

/-! ## A small model of JavaScript runtime values

Response bodies and record fields are dynamically typed in the source;
we model the fragment of JavaScript values the code manipulates. -/

inductive JSValue where
  | undefined
  | null
  | bool (b : Bool)
  | num (n : Int)
  | str (s : String)
  | obj (fields : List (String × JSValue))
  | arr (elems : List JSValue)
deriving Repr

/-- JavaScript truthiness for the modelled fragment
(`undefined`, `null`, `false`, `0`, `""` are falsy; objects and arrays
are always truthy). -/
def JSValue.truthy : JSValue → Bool
  | .undefined => false
  | .null => false
  | .bool b => b
  | .num n => n != 0
  | .str s => s != ""
  | .obj _ => true
  | .arr _ => true

/-- Errors a modelled JavaScript expression can throw. -/
inductive JSError where
  | typeError (msg : String)
  | storeError (msg : String)
deriving Repr, DecidableEq

/-- Field lookup on an object's field list: first binding wins,
a missing field reads as `undefined`. -/
def jsLookup (fields : List (String × JSValue)) (k : String) : JSValue :=
  match fields.find? (fun p => p.1 == k) with
  | some p => p.2
  | none => .undefined

/-- Plain property access `v.k`: throws a `TypeError` when `v` is
`null` or `undefined`, reads `undefined` off non-object primitives. -/
def JSValue.getField : JSValue → String → Except JSError JSValue
  | .undefined, k => .error (.typeError ("Cannot read properties of undefined (reading " ++ k ++ ")"))
  | .null, k => .error (.typeError ("Cannot read properties of null (reading " ++ k ++ ")"))
  | .obj fields, k => .ok (jsLookup fields k)
  | _, _ => .ok .undefined

/-- Optional-chained property access `v?.k`: `undefined` on nullish
receivers, never throws. -/
def JSValue.getFieldOpt : JSValue → String → JSValue
  | .undefined, _ => .undefined
  | .null, _ => .undefined
  | .obj fields, k => jsLookup fields k
  | _, _ => .undefined

/-- `a || b` on modelled values. -/
def jsOr (a b : JSValue) : JSValue := if a.truthy then a else b

/-! ## The audit-log model (`src/models/AuditLog.ts`) -/

/-- The closed `targetType` enumeration of the audit-log schema. -/
inductive TargetType where
  | user
  | service
  | complaint
  | event
  | system
deriving Repr, DecidableEq

/-- An audit record as assembled by `logAuditEntry` for `AuditLog.create`.
`details` carries the request snapshot; `targetId` is absent when the
computed target id was falsy (`targetId || undefined`). -/
structure AuditRecord where
  userId : String
  userName : String
  action : String
  targetType : TargetType
  targetId : Option JSValue
  details : List (String × JSValue)
  ipAddress : Option String
  userAgent : Option String
deriving Repr

/-- `expireAfterSeconds` of the TTL index declared on `createdAt` in
`auditLogSchema` (`auditLogSchema.index({ createdAt: 1 },
{ expireAfterSeconds: 7776000 })`). -/
def auditLogTTLSeconds : Nat := 7776000

/-! ## The audit middleware (`auditLogMiddleware` / `logAuditEntry`) -/

/-- A stored user document, as far as `logAuditEntry` reads it
(`user.firstName`, `user.lastName`). -/
structure UserDoc where
  firstName : String
  lastName : String
deriving Repr, DecidableEq

/-- The slice of the Express request `logAuditEntry` consumes:
`req.user?.id`, `req.path`, `req.params.id`, plus the snapshot fields. -/
structure AuthRequest where
  userId : Option String
  path : String
  paramsId : Option String
  method : String
  body : JSValue
  query : JSValue
  ip : Option String
  userAgent : Option String
deriving Repr

/-- The user store as `User.findById` sees it. -/
def findById (users : List (String × UserDoc)) (uid : String) : Option UserDoc :=
  match users.find? (fun p => p.1 == uid) with
  | some p => some p.2
  | none => none

/-- `req.params.id` as a JavaScript value (`undefined` when the route
had no `id` parameter). -/
def paramsIdVal : Option String → JSValue
  | none => .undefined
  | some s => .str s

/-- `pat` is a leading segment of `cs`. -/
def leadsWith : List Char → List Char → Bool
  | [], _ => true
  | _ :: _, [] => false
  | p :: ps, c :: cs => p == c && leadsWith ps cs

/-- Substring containment on character lists: `pat` occurs at some
position of the second list. -/
def charsInclude (pat : List Char) : List Char → Bool
  | [] => leadsWith pat []
  | c :: cs => leadsWith pat (c :: cs) || charsInclude pat cs

/-- `path.includes(pat)` — JavaScript substring containment. -/
def jsIncludes (path pat : String) : Bool :=
  charsInclude pat.data path.data

/-- Target inference of `logAuditEntry` (lines 89–107): the
`if/else if` chain over `req.path.includes("/users")`,
`"/services"`, `"/complaints"`, `"/events"`, assigning
`targetId = req.params.id || responseBody.data?.id` in each matching
branch and leaving `system` with no target otherwise. -/
def inferTarget (path : String) (paramsId : Option String) (responseBody : JSValue) :
    TargetType × JSValue :=
  let fallbackId := (responseBody.getFieldOpt "data").getFieldOpt "id"
  let tid := jsOr (paramsIdVal paramsId) fallbackId
  if jsIncludes path "/users" then (.user, tid)
  else if jsIncludes path "/services" then (.service, tid)
  else if jsIncludes path "/complaints" then (.complaint, tid)
  else if jsIncludes path "/events" then (.event, tid)
  else (.system, .undefined)

/-- The body of `logAuditEntry`'s `try` block: early returns on a
missing/falsy `req.user?.id` and on an unresolvable user, otherwise
builds the record; `AuditLog.create` may reject (modelled by
`storeOk = false`). Returns the created record, `none` when skipped. -/
def logAuditEntryTry (users : List (String × UserDoc)) (storeOk : Bool)
    (req : AuthRequest) (action : String) (responseBody : JSValue) :
    Except JSError (Option AuditRecord) :=
  match req.userId with
  | none => .ok none
  | some uid =>
    if uid = "" then .ok none
    else
      match findById users uid with
      | none => .ok none
      | some user =>
        let tt := (inferTarget req.path req.paramsId responseBody).1
        let tid := (inferTarget req.path req.paramsId responseBody).2
        let record : AuditRecord :=
          { userId := uid
            userName := user.firstName ++ " " ++ user.lastName
            action := action
            targetType := tt
            targetId := if tid.truthy then some tid else none
            details :=
              [("method", .str req.method), ("path", .str req.path),
               ("body", req.body), ("query", req.query),
               ("params", .obj (match req.paramsId with
                 | none => []
                 | some s => [("id", .str s)]))]
            ipAddress := req.ip
            userAgent := req.userAgent }
        if storeOk then .ok (some record)
        else .error (.storeError "AuditLog.create rejected")

/-- What `logAuditEntry` did: the record it persisted (if any) and
whether its `catch` block logged an operational error. It never
rethrows to its invoker. -/
structure LogOutcome where
  created : Option AuditRecord
  errorLogged : Bool
deriving Repr

/-- `logAuditEntry` (lines 78–129): the `try` body wrapped in the
`catch` that swallows every error into a `console.error`. -/
def logAuditEntry (users : List (String × UserDoc)) (storeOk : Bool)
    (req : AuthRequest) (action : String) (responseBody : JSValue) : LogOutcome :=
  match logAuditEntryTry users storeOk req action responseBody with
  | .ok r => { created := r, errorLogged := false }
  | .error _ => { created := none, errorLogged := true }

/-- The overridden `res.json` installed by `auditLogMiddleware`
(lines 55–64): evaluates `body.success` (a plain property access — it
throws on a nullish body), fires `logAuditEntry` at most once when that
field is truthy, then forwards the body to the original `res.json`.
The first component lists the audit attempts made; the second is what
the caller of `res.json` observes: the forwarded body, or a propagated
exception. -/
def jsonOverride (users : List (String × UserDoc)) (storeOk : Bool)
    (req : AuthRequest) (action : String) (body : JSValue) :
    List LogOutcome × Except JSError JSValue :=
  match body.getField "success" with
  | .error e => ([], .error e)
  | .ok v =>
    if v.truthy then
      ([logAuditEntry users storeOk req action body], .ok body)
    else
      ([], .ok body)

/-! ## Spec-side reformulation of the target inference

The spec describes the inference as a first-match scan over the ordered
keyword list `user, service, complaint, event`; a keyword `k` is looked
for in the path as the route-segment marker `/<k>s`, which is exactly
the substring the code tests. -/

/-- The spec's ordered keyword list with the target type each keyword
selects. -/
def keywordOrder : List (String × TargetType) :=
  [("user", .user), ("service", .service), ("complaint", .complaint), ("event", .event)]

/-- Declarative first-match target type: the first keyword of
`keywordOrder` whose `/<keyword>s` marker occurs in the path wins;
no match defaults to `system`. -/
def pathKeywordMatch (path : String) : TargetType :=
  match keywordOrder.find? (fun p => jsIncludes path ("/" ++ p.1 ++ "s")) with
  | some p => p.2
  | none => .system

/-! ## Demonstration fixtures used by witnesses and counterexamples -/

/-- A request with no authenticated identity attached. -/
def reqAnon : AuthRequest :=
  { userId := none, path := "/audit-logs/cleanup", paramsId := none,
    method := "DELETE", body := .obj [], query := .obj [],
    ip := none, userAgent := none }

/-- A role-update request on user 5, issued by admin `u1`. -/
def reqRoleUpdate : AuthRequest :=
  { userId := some "u1", path := "/users/5/role", paramsId := some "5",
    method := "PATCH", body := .obj [("role", .str "staff")], query := .obj [],
    ip := some "127.0.0.1", userAgent := some "curl" }

/-- A one-admin user store. -/
def demoUsers : List (String × UserDoc) := [("u1", ⟨"Jane", "Admin"⟩)]

/-- A typical success envelope with a `data.id` payload. -/
def demoSuccessBody : JSValue :=
  .obj [("success", .bool true), ("message", .str "Role assigned successfully"),
        ("data", .obj [("id", .str "5"), ("role", .str "staff")])]

/-- The record created for admin `u1`'s role update on user 5. -/
def demoAuditRecord : AuditRecord :=
  { userId := "u1", userName := "Jane Admin", action := "user_role_updated",
    targetType := .user, targetId := some (.str "5"),
    details :=
      [("method", .str "PATCH"), ("path", .str "/users/5/role"),
       ("body", .obj [("role", .str "staff")]), ("query", .obj []),
       ("params", .obj [("id", .str "5")])],
    ipAddress := some "127.0.0.1", userAgent := some "curl" }

/-! ## The websocket fan-out module (`websocketServer.ts`)

`initializeWebSocket` registers a `connection` handler; each socket may
send `join` (subscribing to `user:<userId>`) and `join-role`
(subscribing to `role:<role>`), and disconnect removes it entirely.
`emitToUser` addresses the room `user:<userId>`. -/

/-- A live socket connection and the rooms it has joined. -/
structure Conn where
  cid : Nat
  rooms : List String
deriving Repr, DecidableEq

/-- The registry-mutating occurrences: a socket connecting, its `join`
and `join-role` messages, and its disconnect. -/
inductive WSEvent where
  | connect (cid : Nat)
  | join (cid : Nat) (userId : String)
  | joinRole (cid : Nat) (role : String)
  | disconnect (cid : Nat)
deriving Repr, DecidableEq

/-- `socket.join(room)` — idempotent room membership. -/
def joinRoom (room : String) (c : Conn) : Conn :=
  if room ∈ c.rooms then c else { c with rooms := c.rooms ++ [room] }

/-- One registry step, as wired in `initializeWebSocket`'s
`connection` handler. -/
def applyEvent (st : List Conn) : WSEvent → List Conn
  | .connect cid => st ++ [{ cid := cid, rooms := [] }]
  | .join cid uid => st.map fun c => if c.cid = cid then joinRoom ("user:" ++ uid) c else c
  | .joinRole cid role => st.map fun c => if c.cid = cid then joinRoom ("role:" ++ role) c else c
  | .disconnect cid => st.filter fun c => c.cid ≠ cid

/-- The registry reached from a fresh server by a sequence of events. -/
def runEvents (events : List WSEvent) : List Conn :=
  events.foldl applyEvent []

/-- The delivery set of `io.to("user:" + userId).emit(...)`: the
still-connected sockets that are members of the identity room. -/
def userRoomRecipients (st : List Conn) (userId : String) : List Conn :=
  st.filter fun c => ("user:" ++ userId) ∈ c.rooms

/-- A demonstration trace: socket 1 joins alice's identity room,
socket 2 joins only the staff role room. -/
def demoTrace : List WSEvent :=
  [.connect 1, .join 1 "alice", .connect 2, .joinRole 2 "staff"]

/-! ## The module-level singleton of `websocketServer.ts` (C10) -/

/-- A socket.io server instance: an identity plus its connection
registry. -/
structure ServerInstance where
  sid : Nat
  conns : List Conn
deriving Repr, DecidableEq

/-- The module state around `let io: SocketIOServer`: unset until
`initializeWebSocket` runs. -/
structure WSModule where
  io : Option ServerInstance
deriving Repr, DecidableEq

/-- `initializeWebSocket(server)`: assigns the module singleton and
returns the instance. -/
def initializeWebSocket (_m : WSModule) (server : ServerInstance) :
    WSModule × ServerInstance :=
  ({ io := some server }, server)

/-- `getIO()`: throws `"WebSocket server not initialized"` when the
singleton is unset, otherwise returns it. -/
def getIO (m : WSModule) : Except String ServerInstance :=
  match m.io with
  | none => .error "WebSocket server not initialized"
  | some io => .ok io

/-- What one emit helper call did: which server instance it addressed
(`none` when the `if (io)` guard failed and the call was a no-op) and
the connections the event reached. -/
structure EmitResult where
  usedServer : Option Nat
  delivered : List Conn
deriving Repr, DecidableEq

/-- The delivery set of `io.to("role:" + role).emit(...)`. -/
def roleRoomRecipients (st : List Conn) (role : String) : List Conn :=
  st.filter fun c => ("role:" ++ role) ∈ c.rooms

/-- `emitToUser(userId, event, data)`: guarded by `if (io)`; on a live
server it delivers to the members of the identity room. -/
def emitToUser (m : WSModule) (userId : String) : EmitResult :=
  match m.io with
  | none => { usedServer := none, delivered := [] }
  | some io => { usedServer := some io.sid, delivered := userRoomRecipients io.conns userId }

/-- `emitToRole(role, event, data)`: guarded by `if (io)`. -/
def emitToRole (m : WSModule) (role : String) : EmitResult :=
  match m.io with
  | none => { usedServer := none, delivered := [] }
  | some io => { usedServer := some io.sid, delivered := roleRoomRecipients io.conns role }

/-- `broadcastToAll(data)`: guarded by `if (io)`; `io.emit` reaches
every live connection. -/
def broadcastToAll (m : WSModule) : EmitResult :=
  match m.io with
  | none => { usedServer := none, delivered := [] }
  | some io => { usedServer := some io.sid, delivered := io.conns }

/-! ## The audit-log listing controller
(`adminController.getAuditLogs`, lines 354–412) -/

/-- Value of the longest leading decimal-digit run, continuing from
`acc`. -/
def leadingDigitsAcc (acc : Nat) : List Char → Nat
  | [] => acc
  | c :: cs => if c.isDigit then leadingDigitsAcc (acc * 10 + (c.toNat - 48)) cs else acc

/-- Longest leading run of decimal digits as a number; `none` when the
input starts with no digit. -/
def leadingDigits : List Char → Option Nat
  | [] => none
  | c :: cs => if c.isDigit then some (leadingDigitsAcc (c.toNat - 48) cs) else none

/-- JavaScript `parseInt` applied to an optional string query
parameter; `none` models `NaN`. Leading spaces are skipped, an
optional sign is honoured, the longest decimal-digit run is parsed and
anything else yields `NaN` (in particular an absent parameter, which
stringifies to `"undefined"`). -/
def jsParseInt : Option String → Option Int
  | none => none
  | some s =>
    match s.data.dropWhile (fun c => c = ' ') with
    | '-' :: cs => (leadingDigits cs).map (fun n => -(n : Int))
    | '+' :: cs => (leadingDigits cs).map (fun n => (n : Int))
    | cs => (leadingDigits cs).map (fun n => (n : Int))

/-- `parseInt(req.query.page as string) || 1` — the falsy values `NaN`
and `0` fall back to the default, every other integer (negative ones
included) passes through. -/
def effPage (qpage : Option String) : Int :=
  match jsParseInt qpage with
  | none => 1
  | some n => if n = 0 then 1 else n

/-- `parseInt(req.query.limit as string) || 50`. -/
def effLimit (qlimit : Option String) : Int :=
  match jsParseInt qlimit with
  | none => 50
  | some n => if n = 0 then 50 else n

/-- `const skip = (page - 1) * limit`. -/
def skipOf (page limit : Int) : Int := (page - 1) * limit

/-- A complaint/service document as the placeholder listing reads it:
a title and its `updatedAt` timestamp. -/
structure ActivityDoc where
  title : String
  updatedAt : Nat
deriving Repr, DecidableEq

/-- A merged activity-log entry (`type`/`entity`/`timestamp` of the
objects the controller assembles). -/
structure ActivityEntry where
  type : String
  entity : String
  timestamp : Nat
deriving Repr, DecidableEq

/-- Stable insertion of `x` into a list sorted descending by `key`. -/
def insertByDesc (key : α → Nat) (x : α) : List α → List α
  | [] => [x]
  | y :: ys => if key y ≥ key x then y :: insertByDesc key x ys else x :: y :: ys

/-- Stable descending sort by `key` (insertion sort; both mongoose's
indexed sort and V8's `Array.prototype.sort` are stable). -/
def sortByDesc (key : α → Nat) (l : List α) : List α :=
  l.foldr (insertByDesc key) []

/-- JavaScript `Array.prototype.slice(start, stop)` with its
negative-index normalisation. -/
def jsSlice (l : List α) (start stop : Int) : List α :=
  let len : Int := l.length
  let norm : Int → Nat := fun i => if i < 0 then (max (len + i) 0).toNat else (min i len).toNat
  (l.take (norm stop)).drop (norm start)

/-- `Math.ceil(a / b)` for a nonnegative numerator, as the controller
computes `pages`; `b = 0` cannot arise here because `effLimit` never
returns `0`. -/
def jsCeilDiv (a : Nat) (b : Int) : Int :=
  if 0 < b then Int.ofNat ((a + (b.toNat - 1)) / b.toNat)
  else if b < 0 then -(Int.ofNat (a / (-b).toNat))
  else 0

/-- The `pagination` object of the listing response. -/
structure Pagination where
  page : Int
  limit : Int
  total : Int
  pages : Int
deriving Repr, DecidableEq

/-- The listing response: `{success, data, pagination}`. -/
structure AuditLogsResponse where
  success : Bool
  data : List ActivityEntry
  pagination : Pagination
deriving Repr, DecidableEq

/-- A fetched document turned into the controller's log-entry object. -/
def toActivityEntry (type : String) (d : ActivityDoc) : ActivityEntry :=
  { type := type, entity := d.title, timestamp := d.updatedAt }

/-- `adminController.getAuditLogs` (lines 354–412): parses `page` and
`limit` with `|| 1` / `|| 50` fallbacks, fetches the `limit` most
recently updated complaints and the `limit` most recently updated
services, merges them, re-sorts by timestamp descending, slices the
window `[skip, skip + limit)` — and then reports `total` and `pages`
from `logs.length`, the length of the already-sliced window. -/
def getAuditLogs (complaints services : List ActivityDoc)
    (qpage qlimit : Option String) : AuditLogsResponse :=
  let page := effPage qpage
  let limit := effLimit qlimit
  let skip := skipOf page limit
  let fetchedC := (sortByDesc ActivityDoc.updatedAt complaints).take limit.toNat
  let fetchedS := (sortByDesc ActivityDoc.updatedAt services).take limit.toNat
  let merged := fetchedC.map (toActivityEntry "complaint") ++
    fetchedS.map (toActivityEntry "service")
  let logs := jsSlice (sortByDesc ActivityEntry.timestamp merged) skip (skip + limit)
  { success := true
    data := logs
    pagination :=
      { page := page, limit := limit, total := logs.length
        pages := jsCeilDiv logs.length limit } }

/-- A store of exactly 25 audit-activity records with distinct
ascending timestamps 1..25. -/
def twentyFiveDocs : List ActivityDoc :=
  (List.range 25).map fun i => { title := "doc", updatedAt := i + 1 }

/-! ## The uniform response envelope (C9)

The handlers all answer with object literals; we embed, per cited
handler, the bodies it can emit (`getAllUsers` from the admin
controller, `globalSearch` from the search controller). -/

/-- The five admissible top-level envelope keys. -/
def envelopeKeys : List String := ["success", "message", "data", "error", "pagination"]

/-- The exact key set of a `pagination` object. -/
def paginationKeys : List String := ["page", "limit", "total", "pages"]

/-- Is the value a boolean? -/
def isBoolVal : JSValue → Bool
  | .bool _ => true
  | _ => false

/-- Is the value `undefined` (i.e. the field absent)? -/
def isUndefVal : JSValue → Bool
  | .undefined => true
  | _ => false

/-- Conformance to the uniform envelope
`{success: boolean, message?, data?, error?, pagination?}`: an object
whose `success` is a boolean, whose top-level keys all belong to the
envelope set, and whose `pagination`, when present, is an object
carrying exactly `{page, limit, total, pages}`. -/
def conformsToEnvelope (v : JSValue) : Bool :=
  match v with
  | .obj fields =>
    isBoolVal (jsLookup fields "success") &&
    fields.all (fun p => envelopeKeys.contains p.1) &&
    (match jsLookup fields "pagination" with
     | .undefined => true
     | .obj pfields =>
        pfields.all (fun p => paginationKeys.contains p.1) &&
        paginationKeys.all (fun k => !isUndefVal (jsLookup pfields k))
     | _ => false)
  | _ => false

/-- The top-level keys of a body that fall outside the envelope set. -/
def extraEnvelopeKeys : JSValue → List String
  | .obj fields => (fields.map Prod.fst).filter (fun k => !envelopeKeys.contains k)
  | _ => []

/-- The `pagination` object the controllers assemble. -/
def paginationObj (page limit total pages : Int) : JSValue :=
  .obj [("page", .num page), ("limit", .num limit),
        ("total", .num total), ("pages", .num pages)]

/-- `getAllUsers` success body (adminController lines 53–62):
`{success: true, data, pagination}`. -/
def getAllUsersSuccessBody (users : List JSValue) (page limit total pages : Int) : JSValue :=
  .obj [("success", .bool true), ("data", .arr users),
        ("pagination", paginationObj page limit total pages)]

/-- `getAllUsers` error body (adminController lines 64–68):
`{success: false, message, error}`. -/
def getAllUsersErrorBody (err : String) : JSValue :=
  .obj [("success", .bool false), ("message", .str "Failed to fetch users"),
        ("error", .str err)]

/-- `globalSearch` success body (searchController lines 136–141):
`{success: true, query, totalResults, data}`. -/
def globalSearchSuccessBody (q : String) (totalResults : Int) (results : JSValue) : JSValue :=
  .obj [("success", .bool true), ("query", .str q),
        ("totalResults", .num totalResults), ("data", results)]

/-- `globalSearch` missing-query body: `{success: false, message}`. -/
def globalSearchMissingQueryBody : JSValue :=
  .obj [("success", .bool false), ("message", .str "Search query is required")]

/-- `globalSearch` error body: `{success: false, message, error}`. -/
def globalSearchErrorBody (err : String) : JSValue :=
  .obj [("success", .bool false), ("message", .str "Search failed"),
        ("error", .str err)]

/-! ## C1 — the interception middleware logs iff the body succeeded -/

/-- C1: for every guarded request, the overridden `res.json` makes at
most one audit attempt per emitted body, and it makes one exactly when
reading `success` off the body yields a truthy value. -/
theorem jsonOverride_attempts_iff_success
    (users : List (String × UserDoc)) (storeOk : Bool)
    (req : AuthRequest) (action : String) (body : JSValue) :
    (jsonOverride users storeOk req action body).1.length ≤ 1 ∧
    ((jsonOverride users storeOk req action body).1 ≠ [] ↔
      ∃ v, body.getField "success" = .ok v ∧ v.truthy) := by
  unfold jsonOverride
  match h : body.getField "success" with
  | .error e => simp
  | .ok v =>
    dsimp only
    split <;> simp_all

/-! ## C2 — exception isolation of the interception middleware -/

/-- C2 counterexample: with a `null` response body the success check
`body.success` itself throws a `TypeError` that propagates to the
caller of `res.json`; the body is not forwarded. The claim that no
exception ever propagates — "including a null or undefined body" — is
therefore false. -/
theorem jsonOverride_null_body_propagates :
    (jsonOverride demoUsers true reqAnon "audit_log_cleanup" JSValue.null).2 =
      Except.error (JSError.typeError "Cannot read properties of null (reading success)") :=
  rfl

/-- C2 amended: for every response body that is not `null` or
`undefined`, the overridden `res.json` forwards the original body
unchanged and returns normally, for every user store and regardless of
whether the audit store accepts or rejects the write — so no audit
failure ever propagates to the caller of `res.json`. -/
theorem jsonOverride_forwards_body
    (users : List (String × UserDoc)) (storeOk : Bool)
    (req : AuthRequest) (action : String) (body : JSValue)
    (hnull : body ≠ .null) (hundef : body ≠ .undefined) :
    (jsonOverride users storeOk req action body).2 = .ok body := by
  unfold jsonOverride
  match body, hnull, hundef with
  | .bool b, _, _ => simp [JSValue.getField]; split <;> rfl
  | .num n, _, _ => simp [JSValue.getField]; split <;> rfl
  | .str s, _, _ => simp [JSValue.getField]; split <;> rfl
  | .obj fields, _, _ => simp [JSValue.getField]; split <;> rfl
  | .arr elems, _, _ => simp [JSValue.getField]; split <;> rfl

/-- C2 amended, witnessed at a concrete input: a success body is
forwarded unchanged even when the audit store rejects every write. -/
theorem jsonOverride_forwards_body_witness :
    (jsonOverride demoUsers false reqRoleUpdate "user_role_updated" demoSuccessBody).2 =
      .ok demoSuccessBody :=
  jsonOverride_forwards_body demoUsers false reqRoleUpdate "user_role_updated"
    demoSuccessBody (fun h => JSValue.noConfusion h) (fun h => JSValue.noConfusion h)

/-! ## Characterisation of the target inference -/

/-- The code's `if/else if` chain picks exactly the declarative
first-match target type. -/
lemma inferTarget_fst (path : String) (paramsId : Option String) (body : JSValue) :
    (inferTarget path paramsId body).1 = pathKeywordMatch path := by
  unfold inferTarget pathKeywordMatch keywordOrder
  by_cases h1 : jsIncludes path "/users" <;>
  by_cases h2 : jsIncludes path "/services" <;>
  by_cases h3 : jsIncludes path "/complaints" <;>
  by_cases h4 : jsIncludes path "/events" <;>
  simp [h1, h2, h3, h4, List.find?]

/-- When no keyword matches, the inferred target id is `undefined`. -/
lemma inferTarget_snd_system (path : String) (paramsId : Option String) (body : JSValue)
    (h : pathKeywordMatch path = .system) :
    (inferTarget path paramsId body).2 = .undefined := by
  unfold pathKeywordMatch keywordOrder at h
  unfold inferTarget
  by_cases h1 : jsIncludes path "/users" <;>
  by_cases h2 : jsIncludes path "/services" <;>
  by_cases h3 : jsIncludes path "/complaints" <;>
  by_cases h4 : jsIncludes path "/events" <;>
  simp_all [List.find?]

/-- When some keyword matches, the inferred target id is
`req.params.id || responseBody.data?.id`. -/
lemma inferTarget_snd_matched (path : String) (paramsId : Option String) (body : JSValue)
    (h : pathKeywordMatch path ≠ .system) :
    (inferTarget path paramsId body).2 =
      jsOr (paramsIdVal paramsId) ((body.getFieldOpt "data").getFieldOpt "id") := by
  unfold pathKeywordMatch keywordOrder at h
  unfold inferTarget
  by_cases h1 : jsIncludes path "/users" <;>
  by_cases h2 : jsIncludes path "/services" <;>
  by_cases h3 : jsIncludes path "/complaints" <;>
  by_cases h4 : jsIncludes path "/events" <;>
  simp_all [List.find?]

/-! ## Characterisation of `logAuditEntry`, shared by the target-type
and actor-resolution claims -/

/-- Branch-by-branch description of `logAuditEntry`: skip silently on a
missing/falsy identity or an unresolvable user, persist the assembled
record when the store accepts, swallow the rejection otherwise. -/
lemma logAuditEntry_cases (users : List (String × UserDoc)) (storeOk : Bool)
    (req : AuthRequest) (action : String) (body : JSValue) :
    logAuditEntry users storeOk req action body =
      (match req.userId with
      | none => { created := none, errorLogged := false }
      | some uid =>
        if uid = "" then { created := none, errorLogged := false }
        else
          match findById users uid with
          | none => { created := none, errorLogged := false }
          | some user =>
            if storeOk then
              { created := some
                  { userId := uid
                    userName := user.firstName ++ " " ++ user.lastName
                    action := action
                    targetType := (inferTarget req.path req.paramsId body).1
                    targetId :=
                      if (inferTarget req.path req.paramsId body).2.truthy
                      then some (inferTarget req.path req.paramsId body).2 else none
                    details :=
                      [("method", .str req.method), ("path", .str req.path),
                       ("body", req.body), ("query", req.query),
                       ("params", .obj (match req.paramsId with
                         | none => []
                         | some s => [("id", .str s)]))]
                    ipAddress := req.ip
                    userAgent := req.userAgent }
                errorLogged := false }
            else { created := none, errorLogged := true } : LogOutcome) := by
  unfold logAuditEntry logAuditEntryTry
  cases req.userId with
  | none => rfl
  | some uid =>
    dsimp only
    by_cases h : uid = ""
    · simp only [if_pos h]
    · simp only [if_neg h]
      cases findById users uid with
      | none => rfl
      | some user =>
        dsimp only
        by_cases hs : storeOk
        · simp only [if_pos hs]
        · simp only [if_neg hs]

/-! ## C3 — target-type and target-id inference -/

/-- C3: whenever `logAuditEntry` creates a record, its `targetType` is
the first-match scan of the ordered keyword list (default `system`);
for a matched type the `targetId` is the path parameter `id` when that
is a nonempty string, otherwise the response body's `data.id` (kept
only when truthy, as `targetId || undefined` drops falsy ids); for
`system` no `targetId` is recorded. -/
theorem logAuditEntry_target_inference
    (users : List (String × UserDoc)) (storeOk : Bool)
    (req : AuthRequest) (action : String) (body : JSValue) (rec : AuditRecord)
    (hrec : (logAuditEntry users storeOk req action body).created = some rec) :
    rec.targetType = pathKeywordMatch req.path ∧
    (rec.targetType = .system → rec.targetId = none) ∧
    (∀ s, rec.targetType ≠ .system → req.paramsId = some s → s ≠ "" →
      rec.targetId = some (.str s)) ∧
    (∀ v, rec.targetType ≠ .system → req.paramsId = none →
      (body.getFieldOpt "data").getFieldOpt "id" = v →
      rec.targetId = if v.truthy then some v else none) := by
  rw [logAuditEntry_cases] at hrec
  match huid : req.userId with
  | none => rw [huid] at hrec; exact absurd hrec (by simp)
  | some uid =>
    rw [huid] at hrec
    dsimp only at hrec
    by_cases h : uid = ""
    · rw [if_pos h] at hrec; exact absurd hrec (by simp)
    · rw [if_neg h] at hrec
      match hfind : findById users uid with
      | none => rw [hfind] at hrec; exact absurd hrec (by simp)
      | some user =>
        rw [hfind] at hrec
        dsimp only at hrec
        by_cases hs : storeOk
        · rw [if_pos hs] at hrec
          simp only [Option.some.injEq] at hrec
          subst hrec
          refine ⟨inferTarget_fst req.path req.paramsId body, ?_, ?_, ?_⟩
          · intro hsys
            rw [inferTarget_fst req.path req.paramsId body] at hsys
            simp only [inferTarget_snd_system req.path req.paramsId body hsys]
            rfl
          · intro s htt hp hs'
            have hmatch : pathKeywordMatch req.path ≠ .system := by
              rw [inferTarget_fst req.path req.paramsId body] at htt; exact htt
            show (if (inferTarget req.path req.paramsId body).2.truthy = true
                  then some (inferTarget req.path req.paramsId body).2 else none) =
              some (.str s)
            rw [inferTarget_snd_matched req.path req.paramsId body hmatch, hp]
            simp [paramsIdVal, jsOr, JSValue.truthy, hs']
          · intro v htt hp hv
            have hmatch : pathKeywordMatch req.path ≠ .system := by
              rw [inferTarget_fst req.path req.paramsId body] at htt; exact htt
            show (if (inferTarget req.path req.paramsId body).2.truthy = true
                  then some (inferTarget req.path req.paramsId body).2 else none) =
              if v.truthy then some v else none
            rw [inferTarget_snd_matched req.path req.paramsId body hmatch, hp, hv]
            simp [paramsIdVal, jsOr, JSValue.truthy]
        · rw [if_neg hs] at hrec; exact absurd hrec (by simp)

/-- C3 witness: on the concrete role-update request the created record
carries the first-match target type (`user`) and the path parameter as
target id. -/
theorem logAuditEntry_target_inference_witness :
    demoAuditRecord.targetType = pathKeywordMatch "/users/5/role" ∧
    demoAuditRecord.targetId = some (.str "5") := by
  have h := logAuditEntry_target_inference demoUsers true reqRoleUpdate
    "user_role_updated" demoSuccessBody demoAuditRecord (by rfl)
  refine ⟨h.1, ?_⟩
  exact h.2.2.1 "5" (by decide) rfl (by decide)

/-! ## C4 — actor resolution at logging time -/

/-- C4: when the acting identity is absent (or JS-falsy) on the request
or the user cannot be found in the store at logging time, the helper
skips silently — no record, no error surfaced; when the user resolves,
the created record snapshots the user's display name
(`firstName ++ " " ++ lastName`) as read from the store at call time. -/
theorem logAuditEntry_actor_resolution
    (users : List (String × UserDoc)) (storeOk : Bool)
    (req : AuthRequest) (action : String) (body : JSValue) :
    ((req.userId = none ∨ req.userId = some "" ∨
       ∀ uid, req.userId = some uid → findById users uid = none) →
      logAuditEntry users storeOk req action body =
        { created := none, errorLogged := false }) ∧
    (∀ uid user rec, req.userId = some uid → findById users uid = some user →
      (logAuditEntry users storeOk req action body).created = some rec →
      rec.userName = user.firstName ++ " " ++ user.lastName) := by
  constructor
  · intro habs
    rw [logAuditEntry_cases]
    rcases habs with h | h | h
    · rw [h]
    · rw [h]; simp
    · cases huid : req.userId with
      | none => rfl
      | some uid =>
        dsimp only
        by_cases he : uid = ""
        · rw [if_pos he]
        · rw [if_neg he, h uid huid]
  · intro uid user rec huid hfind hrec
    rw [logAuditEntry_cases, huid] at hrec
    dsimp only at hrec
    by_cases he : uid = ""
    · rw [if_pos he] at hrec; exact absurd hrec (by simp)
    · rw [if_neg he, hfind] at hrec
      dsimp only at hrec
      by_cases hs : storeOk
      · rw [if_pos hs] at hrec
        simp only [Option.some.injEq] at hrec
        subst hrec
        rfl
      · rw [if_neg hs] at hrec; exact absurd hrec (by simp)

/-- C4 witness: with no authenticated identity on the request the
helper creates nothing and logs no error. -/
theorem logAuditEntry_actor_resolution_witness :
    logAuditEntry demoUsers true reqAnon "manual_log_creation" (.obj []) =
      { created := none, errorLogged := false } :=
  (logAuditEntry_actor_resolution demoUsers true reqAnon
    "manual_log_creation" (.obj [])).1 (Or.inl rfl)

lemma userRoom_inj {a b : String} (h : "user:" ++ a = "user:" ++ b) : a = b := by
  have hd := congrArg String.data h
  rw [String.data_append, String.data_append] at hd
  have := List.append_cancel_left hd
  exact String.ext this

lemma userRoom_ne_roleRoom (a b : String) : "user:" ++ a ≠ "role:" ++ b := by
  intro h
  have hd := congrArg String.data h
  rw [String.data_append, String.data_append] at hd
  simp at hd

/-- `joinRoom` preserves the connection id. -/
lemma joinRoom_cid (room : String) (c : Conn) : (joinRoom room c).cid = c.cid := by
  unfold joinRoom; split <;> rfl

/-- Rooms after `joinRoom` are the old rooms plus possibly the new one. -/
lemma mem_joinRoom_rooms {room r : String} {c : Conn}
    (h : r ∈ (joinRoom room c).rooms) : r ∈ c.rooms ∨ r = room := by
  unfold joinRoom at h
  split at h
  · exact Or.inl h
  · rcases List.mem_append.mp h with h' | h'
    · exact Or.inl h'
    · simp at h'; exact Or.inr h'

/-- Provenance of an identity-room membership across one step: it was
already there on the same socket, or this very step is the matching
`join`. -/
lemma applyEvent_user_room {st : List Conn} {e : WSEvent} {uid : String} {c : Conn}
    (hc : c ∈ applyEvent st e) (hr : ("user:" ++ uid) ∈ c.rooms) :
    (∃ c₁ ∈ st, c₁.cid = c.cid ∧ ("user:" ++ uid) ∈ c₁.rooms) ∨
    e = .join c.cid uid := by
  cases e with
  | connect cid =>
    rcases List.mem_append.mp hc with h | h
    · exact Or.inl ⟨c, h, rfl, hr⟩
    · simp at h
      subst h
      simp at hr
  | join cid u =>
    rcases List.mem_map.mp hc with ⟨c₁, hc₁, heq⟩
    by_cases hcid : c₁.cid = cid
    · rw [if_pos hcid] at heq
      subst heq
      rcases mem_joinRoom_rooms hr with h | h
      · exact Or.inl ⟨c₁, hc₁, (joinRoom_cid _ c₁).symm ▸ rfl, h⟩
      · have huid : uid = u := userRoom_inj h
        subst huid
        rw [joinRoom_cid, hcid]
        exact Or.inr rfl
    · rw [if_neg hcid] at heq
      subst heq
      exact Or.inl ⟨c₁, hc₁, rfl, hr⟩
  | joinRole cid r =>
    rcases List.mem_map.mp hc with ⟨c₁, hc₁, heq⟩
    by_cases hcid : c₁.cid = cid
    · rw [if_pos hcid] at heq
      subst heq
      rcases mem_joinRoom_rooms hr with h | h
      · exact Or.inl ⟨c₁, hc₁, (joinRoom_cid _ c₁).symm ▸ rfl, h⟩
      · exact absurd h (userRoom_ne_roleRoom uid r)
    · rw [if_neg hcid] at heq
      subst heq
      exact Or.inl ⟨c₁, hc₁, rfl, hr⟩
  | disconnect cid =>
    exact Or.inl ⟨c, List.mem_of_mem_filter hc, rfl, hr⟩

/-- Provenance of an identity-room membership across a run: the trace
contains the matching `join` message from that socket. -/
lemma join_event_of_user_room :
    ∀ (events : List WSEvent) (st : List Conn) (uid : String) (c : Conn),
      c ∈ events.foldl applyEvent st →
      ("user:" ++ uid) ∈ c.rooms →
      (∃ c₁ ∈ st, c₁.cid = c.cid ∧ ("user:" ++ uid) ∈ c₁.rooms) ∨
      WSEvent.join c.cid uid ∈ events := by
  intro events
  induction events with
  | nil =>
    intro st uid c hc hr
    exact Or.inl ⟨c, hc, rfl, hr⟩
  | cons e es ih =>
    intro st uid c hc hr
    rcases ih (applyEvent st e) uid c hc hr with ⟨c₁, hc₁, hcid, hr₁⟩ | hjoin
    · rcases applyEvent_user_room hc₁ hr₁ with ⟨c₂, hc₂, hcid₂, hr₂⟩ | hev
      · exact Or.inl ⟨c₂, hc₂, hcid₂.trans hcid, hr₂⟩
      · rw [hcid] at hev
        exact Or.inr (hev ▸ List.mem_cons_self _ _)
    · exact Or.inr (List.mem_cons_of_mem _ hjoin)

/-! ## C6 — room isolation of `emitToUser` -/

/-- C6: in every registry state reachable by connect/join/join-role/
disconnect events, every recipient of `emitToUser userId` is a
still-connected socket that is a member of `user:<userId>` and whose
`join userId` message occurs in the trace; in particular no recipient
has joined only `role:staff`. -/
theorem emitToUser_room_isolation
    (events : List WSEvent) (userId : String) (c : Conn)
    (hrecip : c ∈ userRoomRecipients (runEvents events) userId) :
    c ∈ runEvents events ∧
    ("user:" ++ userId) ∈ c.rooms ∧
    WSEvent.join c.cid userId ∈ events ∧
    c.rooms ≠ ["role:staff"] := by
  have hconn : c ∈ runEvents events := List.mem_of_mem_filter hrecip
  have hroom : ("user:" ++ userId) ∈ c.rooms := by
    have := List.of_mem_filter hrecip
    simpa using this
  have hjoin : WSEvent.join c.cid userId ∈ events := by
    rcases join_event_of_user_room events [] userId c hconn hroom with ⟨c₁, hc₁, _⟩ | h
    · exact absurd hc₁ (List.not_mem_nil c₁)
    · exact h
  refine ⟨hconn, hroom, hjoin, ?_⟩
  intro hstaff
  rw [hstaff] at hroom
  simp at hroom
  exact userRoom_ne_roleRoom userId "staff" (by rw [hroom]; rfl)

/-- C6 witness: on the demonstration trace, the recipient of an emit to
alice is socket 1 — connected, a member of `user:alice`, with its
`join` on record — and its room list is not `["role:staff"]`. -/
theorem emitToUser_room_isolation_witness :
    ({ cid := 1, rooms := ["user:alice"] } : Conn) ∈ runEvents demoTrace ∧
    WSEvent.join 1 "alice" ∈ demoTrace ∧
    ({ cid := 1, rooms := ["user:alice"] } : Conn).rooms ≠ ["role:staff"] := by
  have h := emitToUser_room_isolation demoTrace "alice"
    { cid := 1, rooms := ["user:alice"] } (by decide)
  exact ⟨h.1, h.2.2.1, h.2.2.2⟩

/-! ## C10 — behaviour before and after initialization -/

/-- C10: while the singleton is unset, the three emit helpers return
normally, address no server and deliver nothing, while `getIO` throws;
once `initializeWebSocket` has run, `getIO` returns the initialized
instance and all three emit helpers address that same instance. -/
theorem websocket_singleton_guard (userId role : String) :
    (∀ m : WSModule, m.io = none →
      emitToUser m userId = { usedServer := none, delivered := [] } ∧
      emitToRole m role = { usedServer := none, delivered := [] } ∧
      broadcastToAll m = { usedServer := none, delivered := [] } ∧
      getIO m = .error "WebSocket server not initialized") ∧
    (∀ (m : WSModule) (server : ServerInstance),
      getIO (initializeWebSocket m server).1 = .ok server ∧
      (emitToUser (initializeWebSocket m server).1 userId).usedServer = some server.sid ∧
      (emitToRole (initializeWebSocket m server).1 role).usedServer = some server.sid ∧
      (broadcastToAll (initializeWebSocket m server).1).usedServer = some server.sid) := by
  constructor
  · intro m hm
    refine ⟨?_, ?_, ?_, ?_⟩ <;>
      simp [emitToUser, emitToRole, broadcastToAll, getIO, hm]
  · intro m server
    exact ⟨rfl, rfl, rfl, rfl⟩

/-- C10 witness: concretely, in the uninitialized module the emits
no-op and `getIO` errors; after initializing with instance 7 they all
address instance 7. -/
theorem websocket_singleton_guard_witness :
    emitToUser { io := none } "alice" = { usedServer := none, delivered := [] } ∧
    getIO { io := none } = .error "WebSocket server not initialized" ∧
    getIO (initializeWebSocket { io := none } { sid := 7, conns := [] }).1 =
      .ok { sid := 7, conns := [] } := by
  have h₁ := (websocket_singleton_guard "alice" "staff").1 { io := none } rfl
  have h₂ := (websocket_singleton_guard "alice" "staff").2 { io := none }
    { sid := 7, conns := [] }
  exact ⟨h₁.1, h₁.2.2.2, h₂.1⟩

/-! ## C5 — the retention horizon -/

/-- C5: the TTL configured on `createdAt` in the audit-log schema is
7,776,000 seconds, i.e. exactly 90 days of 86,400 seconds. -/
theorem auditLogTTL_is_ninety_days :
    auditLogTTLSeconds = 90 * 86400 := by decide

/-! ## C7 — pagination over 25 records -/

/-- C7: evaluating the listing at a store of exactly 25 records with
`page=2, limit=10` exposes the placeholder's bug: only the 10 most
recent records are ever fetched per source, the slice `[10, 20)` of
those 10 is empty, and `total`/`pages` are computed from the sliced
window — the response reports `data = []`, `total = 0`, `pages = 0`
instead of records 11–20, `total = 25`, `pages = 3`. -/
theorem getAuditLogs_25_records_page2 :
    (getAuditLogs twentyFiveDocs [] (some "2") (some "10")).data = [] ∧
    (getAuditLogs twentyFiveDocs [] (some "2") (some "10")).pagination.total = 0 ∧
    (getAuditLogs twentyFiveDocs [] (some "2") (some "10")).pagination.pages = 0 ∧
    (getAuditLogs twentyFiveDocs [] (some "2") (some "10")).pagination.total ≠ 25 ∧
    (getAuditLogs twentyFiveDocs [] (some "2") (some "10")).pagination.pages ≠ 3 := by
  decide

/-! ## C8 — page/limit clamping -/

/-- C8 counterexample: a negative `page` is *not* clamped — with
`page=-1` (and `limit` absent, defaulting to 50) the effective page is
`-1`, not `1`, and the computed skip offset is `-100`, which is
negative. -/
theorem effPage_negative_not_clamped :
    effPage (some "-1") ≠ 1 ∧
    effPage (some "-1") = -1 ∧
    skipOf (effPage (some "-1")) (effLimit none) = -100 := by
  decide

/-- C8 amended: an absent, non-numeric (`NaN`-parsing) or zero `page`
or `limit` falls back to the defaults 1 and 50 respectively; every
nonzero parsed integer — negative ones included — is used as-is. -/
theorem effPaging_defaults (qpage qlimit : Option String) :
    ((jsParseInt qpage = none ∨ jsParseInt qpage = some 0) → effPage qpage = 1) ∧
    ((jsParseInt qlimit = none ∨ jsParseInt qlimit = some 0) → effLimit qlimit = 50) ∧
    (∀ n : Int, jsParseInt qpage = some n → n ≠ 0 → effPage qpage = n) ∧
    (∀ n : Int, jsParseInt qlimit = some n → n ≠ 0 → effLimit qlimit = n) := by
  refine ⟨?_, ?_, ?_, ?_⟩
  · rintro (h | h) <;> simp [effPage, h]
  · rintro (h | h) <;> simp [effLimit, h]
  · intro n h hn
    simp [effPage, h, hn]
  · intro n h hn
    simp [effLimit, h, hn]

/-- C8 amended, witnessed: an absent page, a non-numeric page and a
zero limit all fall back to the defaults, and a nonzero page passes
through. -/
theorem effPaging_defaults_witness :
    effPage none = 1 ∧ effPage (some "abc") = 1 ∧
    effLimit (some "0") = 50 ∧ effPage (some "3") = 3 := by
  refine ⟨?_, ?_, ?_, ?_⟩
  · exact (effPaging_defaults none none).1 (Or.inl rfl)
  · exact (effPaging_defaults (some "abc") none).1 (Or.inl rfl)
  · exact (effPaging_defaults none (some "0")).2.1 (Or.inr rfl)
  · exact (effPaging_defaults (some "3") none).2.2.1 3 rfl (by decide)

/-! ## C9 — every response conforms to the envelope -/

/-- C9 counterexample: the success body of `globalSearch` does not
conform to the envelope — it carries the top-level keys `query` and
`totalResults`, which are outside
`{success, message, data, error, pagination}`. -/
theorem globalSearch_body_breaks_envelope :
    conformsToEnvelope (globalSearchSuccessBody "road" 3 (.obj [])) = false ∧
    extraEnvelopeKeys (globalSearchSuccessBody "road" 3 (.obj [])) =
      ["query", "totalResults"] := by
  decide

/-- C9 amended: the embedded handler bodies all conform to the uniform
envelope — with boolean `success`, top-level keys drawn from
`{success, message, data, error, pagination}` and `pagination`, when
present, carrying exactly `{page, limit, total, pages}` — except the
`globalSearch` success body, which additionally carries exactly the
top-level keys `query` and `totalResults`. -/
theorem response_envelope_amended :
    (∀ (users : List JSValue) (page limit total pages : Int),
      conformsToEnvelope (getAllUsersSuccessBody users page limit total pages) = true) ∧
    (∀ err, conformsToEnvelope (getAllUsersErrorBody err) = true) ∧
    conformsToEnvelope globalSearchMissingQueryBody = true ∧
    (∀ err, conformsToEnvelope (globalSearchErrorBody err) = true) ∧
    (∀ (q : String) (n : Int) (results : JSValue),
      extraEnvelopeKeys (globalSearchSuccessBody q n results) = ["query", "totalResults"] ∧
      isBoolVal ((globalSearchSuccessBody q n results).getFieldOpt "success") = true) :=
  ⟨fun _ _ _ _ _ => rfl, fun _ => rfl, rfl, fun _ => rfl, fun _ _ _ => ⟨rfl, rfl⟩⟩

end IBarangay
